import Mathlib

/-!
Verification of the bulk-import pipeline and CRUD helpers of a Streamlit
CRUD application backed by a remote table store (src/app.py).

The embedding models a pandas DataFrame in row-major form: a list of column
names together with a list of rows, each row a list of optional scalar
values (`none` models NaN / null).  Scalars are modelled as strings, which
is faithful for every property considered here: the code never inspects the
numeric value of a cell, only whether it is null and whether it equals
another cell.

Side effects are made explicit: store calls are passed in as data
(an `Except String` outcome standing for the remote call either returning
or raising), displayed messages are returned as values, and the list of
issued insert calls is part of the result of the bulk submitter.
-/

/-- Scalar cell value of a DataFrame; `none` models NaN / null. -/
abbrev Value := Option String

/-- One record as handed to the store: an association list from column
name to value, as produced by `DataFrame.to_dict` with records orientation. -/
abbrev DBRecord := List (String × Value)

/-- Row-major model of a pandas DataFrame: named columns plus rows.
A well-formed frame has every row of the same length as `columns`. -/
structure DataFrame where
  columns : List String
  rows : List (List Value)
deriving DecidableEq, Repr

/-- The empty DataFrame, as produced by `pd.DataFrame()`. -/
def DataFrame.empty : DataFrame := ⟨[], []⟩

/-- Index of a column name in a column list (first occurrence). -/
def colIdx (c : String) : List String → Nat
  | [] => 0
  | x :: xs => if x = c then 0 else colIdx c xs + 1

/-- Values of one named column, in row order (`df_upload[file_col]`). -/
def DataFrame.colValues (df : DataFrame) (c : String) : List Value :=
  df.rows.map (fun r => r.getD (colIdx c df.columns) none)

/-- A row is complete when no cell is null: the rows kept by `dropna`. -/
def rowComplete (r : List Value) : Bool :=
  r.all Option.isSome

/-- Embedding of `df_upload.dropna()` (src/app.py line 423): keep exactly
the rows with no null cell, in order; columns unchanged. -/
def DataFrame.dropna (df : DataFrame) : DataFrame :=
  ⟨df.columns, df.rows.filter rowComplete⟩

/-- Embedding of `df_upload.head(n)` (src/app.py line 434): keep the first
`n` rows; columns unchanged. -/
def DataFrame.head (df : DataFrame) (n : Nat) : DataFrame :=
  ⟨df.columns, df.rows.take n⟩

/-- Embedding of `dataframe.to_dict` with records orientation
(src/app.py line 75): one association list per row, keys in column order. -/
def DataFrame.toRecords (df : DataFrame) : List DBRecord :=
  df.rows.map (fun r => df.columns.zip r)

/-- Embedding of `matching_cols = set(file_columns) & set(table_columns)`
(src/app.py line 386), kept in file-column order. -/
def matchingCols (file_columns table_columns : List String) : List String :=
  file_columns.filter (fun c => table_columns.contains c)

/-- One column of the manually mapped frame: destination name paired with
the values copied from a file column. -/
abbrev ColumnData := String × List Value

/-- Embedding of `mapped_df[table_col] = df_upload[file_col]` on a pandas
frame in columnar form: if the destination column exists its values are
overwritten in place (position kept), otherwise the column is appended. -/
def assignCol (acc : List ColumnData) (p : ColumnData) : List ColumnData :=
  if (acc.map Prod.fst).contains p.1 then
    acc.map (fun q => if q.1 = p.1 then p else q)
  else acc ++ [p]

/-- Embedding of the Apply Mapping loop (src/app.py lines 408 to 412) in
columnar form: walk the file columns in order and, for each one whose
chosen destination is not the Skip sentinel, assign its values to the
destination column of the frame being built. -/
def mappingCols (df : DataFrame) (choice : String → String) : List ColumnData :=
  df.columns.foldl
    (fun acc c => if choice c = "Skip" then acc else assignCol acc (choice c, df.colValues c))
    []

/-- Conversion of a columnar frame with `n` source rows back to row-major
form.  With no columns assigned, pandas leaves `mapped_df` empty (zero
rows); otherwise index alignment gives back the `n` source rows. -/
def toRowMajor (n : Nat) (cols : List ColumnData) : DataFrame :=
  if cols.isEmpty then DataFrame.empty
  else ⟨cols.map Prod.fst, (List.range n).map (fun i => cols.map (fun p => p.2.getD i none))⟩

/-- Embedding of the whole Apply Mapping step: `df_upload = mapped_df`
(src/app.py line 412). -/
def applyMapping (df : DataFrame) (choice : String → String) : DataFrame :=
  toRowMajor df.rows.length (mappingCols df choice)

/-- Embedding of the cleaning stage (src/app.py lines 421 to 434): the
optional `dropna` followed by truncation to `upload_limit` rows.  Both
pandas operations return fresh frames, so the stage is a pure function of
its input. -/
def cleanStage (remove_empty : Bool) (upload_limit : Nat) (df : DataFrame) : DataFrame :=
  (if remove_empty then df.dropna else df).head upload_limit

/-- Embedding of the bulk-upload data path from loaded file to the frame
handed to `bulk_insert_records` (src/app.py lines 391 to 443): optional
manual mapping, then the cleaning stage. -/
def bulkPipeline (df_upload : DataFrame) (applyMap : Bool) (choice : String → String)
    (remove_empty : Bool) (upload_limit : Nat) : DataFrame :=
  cleanStage remove_empty upload_limit
    (if applyMap then applyMapping df_upload choice else df_upload)

/-- Construction of a pandas DataFrame from a list of records
(`pd.DataFrame(response.data)`): columns from the first record, missing
keys filled with null. -/
def recordsToDF (data : List DBRecord) : DataFrame :=
  match data with
  | [] => DataFrame.empty
  | r0 :: _ =>
    let cols := r0.map Prod.fst
    ⟨cols, data.map (fun r => cols.map (fun c => ((r.find? (fun p => p.1 = c)).map Prod.snd).getD none))⟩

/-- Embedding of `get_table_data` (src/app.py lines 44 to 51), return value
only: on a response with data, the frame built from it; on an empty
response or on an exception, `pd.DataFrame()`.  The argument stands for the
remote select call either returning record data or raising. -/
def get_table_data (resp : Except String (List DBRecord)) : DataFrame :=
  match resp with
  | .ok data => if data.isEmpty then DataFrame.empty else recordsToDF data
  | .error _ => DataFrame.empty

/-- Error message displayed by `get_table_data` via `st.error`
(src/app.py line 50): present exactly when the remote call raised. -/
def get_table_data_display (resp : Except String (List DBRecord)) : Option String :=
  match resp with
  | .ok _ => none
  | .error e => some ("Error fetching data: " ++ e)

/-- One issued insert call: destination table plus the full record batch. -/
structure InsertCall where
  table : String
  records : List DBRecord
deriving DecidableEq, Repr

/-- Embedding of `bulk_insert_records` (src/app.py lines 72 to 79): convert
the frame to records, issue exactly one insert call with the whole batch,
and report.  `store` stands for the remote insert either returning or
raising.  The first component is the list of calls issued, the second the
returned `(success, message)` pair.  On success the reported count is the
length of the record list itself; the store is never queried again. -/
def bulk_insert_records (store : InsertCall → Except String Unit)
    (table_name : String) (df : DataFrame) : List InsertCall × (Bool × String) :=
  let records := df.toRecords
  let call : InsertCall := ⟨table_name, records⟩
  match store call with
  | .ok _ => ([call], (true, "Successfully inserted " ++ toString records.length ++ " records!"))
  | .error e => ([call], (false, "Error in bulk insert: " ++ e))

/-- Dictionary lookup of a key in a record. -/
def lookupVal (k : String) : DBRecord → Option Value
  | [] => none
  | p :: ps => if p.1 = k then some p.2 else lookupVal k ps

/-- Filter semantics of `.eq(id_column, record_id)`: the row matches when
its value in `id_column` equals the given id value. -/
def rowMatches (r : DBRecord) (idc : String) (idv : Value) : Bool :=
  decide (lookupVal idc r = some idv)

/-- Number of rows of a stored table matched by `.eq(id_column, record_id)`. -/
def countMatches (tbl : List DBRecord) (idc : String) (idv : Value) : Nat :=
  (tbl.filter (fun r => rowMatches r idc idv)).length

/-- Application of an update payload to one record: listed fields are
overwritten, the rest kept. -/
def applyPatch (patch : DBRecord) (r : DBRecord) : DBRecord :=
  r.map (fun p => match lookupVal p.1 patch with
    | some w => (p.1, w)
    | none => p)

/-- Remote semantics of `.update(data).eq(id_column, record_id)`: every
matching row is patched, the rest are untouched.  Zero matching rows is not
an error at the store. -/
def supabaseUpdate (tbl : List DBRecord) (idc : String) (idv : Value) (patch : DBRecord) :
    List DBRecord :=
  tbl.map (fun r => if rowMatches r idc idv then applyPatch patch r else r)

/-- Remote semantics of `.delete().eq(id_column, record_id)`: every
matching row is removed.  Zero matching rows is not an error at the store. -/
def supabaseDelete (tbl : List DBRecord) (idc : String) (idv : Value) : List DBRecord :=
  tbl.filter (fun r => !rowMatches r idc idv)

/-- Embedding of `update_record` (src/app.py lines 81 to 87): `transport`
is `some e` when the remote call raises with message `e` and `none` when it
goes through.  Result: the stored table afterwards, plus the returned
`(success, message)` pair. -/
def update_record (transport : Option String) (tbl : List DBRecord)
    (idc : String) (idv : Value) (patch : DBRecord) : List DBRecord × (Bool × String) :=
  match transport with
  | some e => (tbl, (false, "Error updating record: " ++ e))
  | none => (supabaseUpdate tbl idc idv patch, (true, "Record updated successfully!"))

/-- Embedding of `delete_record` (src/app.py lines 89 to 95), in the same
style as `update_record`. -/
def delete_record (transport : Option String) (tbl : List DBRecord)
    (idc : String) (idv : Value) : List DBRecord × (Bool × String) :=
  match transport with
  | some e => (tbl, (false, "Error deleting record: " ++ e))
  | none => (supabaseDelete tbl idc idv, (true, "Record deleted successfully!"))

/-- Embedding of the Python string method lower, lowercasing every
character. -/
def pyLower (s : String) : String := ⟨s.data.map Char.toLower⟩

/-- The auto-generated field names excluded by the Add Record form
(src/app.py lines 198 and 215), compared case-insensitively. -/
def protectedFields : List String := ["id", "created_at", "updated_at"]

/-- Embedding of the `record_data` dictionary of the Add Record form
(src/app.py lines 193 to 208): one text input per non-protected column,
holding whatever the user entered (empty string when left blank). -/
def addRecordData (columns : List String) (entered : String → String) :
    List (String × String) :=
  (columns.filter (fun c => !protectedFields.contains (pyLower c))).map (fun c => (c, entered c))

/-- Embedding of `clean_data` in the Add Record path (src/app.py lines 214
to 215): drop empty values (Python falsiness of the entered string) and any
field whose lowercased name is protected. -/
def addCleanData (columns : List String) (entered : String → String) :
    List (String × String) :=
  (addRecordData columns entered).filter
    (fun kv => kv.2 != "" && !protectedFields.contains (pyLower kv.1))

/-- Embedding of the Add Record submission (src/app.py lines 217 to 225):
the insert call issued, or `none` when the cleaned payload is empty (the
code then only warns and issues no store call). -/
def addRecordSubmit (table : String) (columns : List String) (entered : String → String) :
    Option (String × List (String × String)) :=
  let clean := addCleanData columns entered
  if clean.isEmpty then none else some (table, clean)

/-- Embedding of the `update_data` dictionary of the Update Record form
(src/app.py lines 261 to 278): one text input per column other than the
chosen id column. -/
def updateDataFields (columns : List String) (idc : String) (entered : String → String) :
    List (String × String) :=
  (columns.filter (fun c => c != idc)).map (fun c => (c, entered c))

/-- Embedding of `clean_data` in the Update Record path (src/app.py lines
284 to 285): drop empty values and the id column. -/
def updateCleanData (columns : List String) (idc : String) (entered : String → String) :
    List (String × String) :=
  (updateDataFields columns idc entered).filter (fun kv => kv.2 != "" && kv.1 != idc)

/-- Embedding of the Update Record submission (src/app.py lines 287 to
295): the update call issued, or `none` when the cleaned payload is empty
(the code then reports no changes and issues no store call). -/
def updateRecordSubmit (table : String) (columns : List String) (idc : String)
    (idv : String) (entered : String → String) :
    Option (String × String × String × List (String × String)) :=
  let clean := updateCleanData columns idc entered
  if clean.isEmpty then none else some (table, idc, idv, clean)

/-- Column information displayed in the bulk-upload tab before mapping
(src/app.py lines 380 to 388): the table column list, the file column
list, and the matching columns, the latter shown only when nonempty. -/
structure ReconcileDisplay where
  tableColsShown : List String
  fileColsShown : List String
  matchingShown : Option (List String)
deriving DecidableEq, Repr

/-- Embedding of the column reporting of the bulk-upload tab
(src/app.py lines 380 to 388). -/
def reconcileDisplay (file_columns table_columns : List String) : ReconcileDisplay :=
  ⟨table_columns, file_columns,
   if (matchingCols file_columns table_columns).isEmpty then none
   else some (matchingCols file_columns table_columns)⟩

/-- First value stored under a destination column name in a columnar
frame. -/
def lookupCol (d : String) : List ColumnData → Option (List Value)
  | [] => none
  | p :: ps => if p.1 = d then some p.2 else lookupCol d ps

/-- Ten-row example upload with columns name, email and extra, used for
the end-to-end scenario of the spec. -/
def exUpload : DataFrame :=
  ⟨["name", "email", "extra"],
   (List.range 10).map (fun i =>
     [some ("n" ++ toString i), some ("e" ++ toString i), some ("x" ++ toString i)])⟩

/-- Table columns of the end-to-end scenario. -/
def exTableCols : List String := ["name", "email"]

/-- Four-record example frame of which exactly the second record has a
null field. -/
def exClean4 : DataFrame :=
  ⟨["a", "b"],
   [[some "1", some "2"], [some "3", none], [some "4", some "5"], [some "6", some "7"]]⟩

/-- The three complete records of `exClean4`, in original order. -/
def exClean3 : DataFrame :=
  ⟨["a", "b"], [[some "1", some "2"], [some "4", some "5"], [some "6", some "7"]]⟩

/-- Two-row example frame whose two file columns are both mapped to the
same destination column. -/
def exDup : DataFrame :=
  ⟨["a", "b"], [[some "1", some "2"], [some "3", some "4"]]⟩

/-- Mapping choice sending every file column to destination column x. -/
def choiceX : String → String := fun _ => "x"

/-- Mapping choice leaving every file column unmapped. -/
def skipChoice : String → String := fun _ => "Skip"

/-- A store whose insert call always goes through. -/
def okStore : InsertCall → Except String Unit := fun _ => Except.ok ()

/-- A store whose insert call always raises a constraint violation. -/
def failStore : InsertCall → Except String Unit :=
  fun _ => Except.error "duplicate key value violates unique constraint"

/-- Example form entries: the name field is filled, the rest left blank. -/
def enteredAdd : String → String := fun c => if c = "name" then "alice" else ""

/-- Example form entries leaving every field blank. -/
def enteredBlank : String → String := fun _ => ""

/-- The bulk submitter issues exactly one insert call, whatever the store
outcome: there is no retry and no partial batch. -/
theorem bulk_insert_calls (store : InsertCall → Except String Unit) (t : String)
    (df : DataFrame) : (bulk_insert_records store t df).1 = [⟨t, df.toRecords⟩] := by
  dsimp only [bulk_insert_records]
  split <;> rfl

/-- C1 (amended): with no manual mapping applied, drop_incomplete off and
the limit at least the row count, the frame handed to the bulk submitter is
the loaded frame itself, all file columns included; the intersection with
the table columns is computed only for display.  The submitter is invoked
with exactly one insert call carrying every record of that frame. -/
theorem c1_no_mapping_submits_all_file_columns (df : DataFrame) (choice : String → String)
    (store : InsertCall → Except String Unit) (t : String) (n : Nat)
    (hn : df.rows.length ≤ n) :
    bulkPipeline df false choice false n = df ∧
    (bulk_insert_records store t (bulkPipeline df false choice false n)).1 =
      [⟨t, df.toRecords⟩] := by
  have h1 : bulkPipeline df false choice false n = df := by
    simp [bulkPipeline, cleanStage, DataFrame.head, List.take_of_length_le hn]
  exact ⟨h1, by rw [h1]; exact bulk_insert_calls store t df⟩

/-- C1 (witness): the ten-row scenario frame is submitted whole. -/
theorem c1_no_mapping_witness :
    exUpload.rows.length ≤ 10 ∧ bulkPipeline exUpload false skipChoice false 10 = exUpload :=
  ⟨by decide,
   (c1_no_mapping_submits_all_file_columns exUpload skipChoice okStore "customers" 10
     (by decide)).1⟩

/-- C1 (counterexample): uploading the ten-row file with columns name,
email and extra against a table with columns name and email, with no
mapping, drop_incomplete off and limit ten, hands the submitter a frame
whose columns still include extra, not the intersection. -/
theorem c1_counterexample :
    (bulkPipeline exUpload false skipChoice false 10).columns = ["name", "email", "extra"] ∧
    matchingCols exUpload.columns exTableCols = ["name", "email"] ∧
    (bulkPipeline exUpload false skipChoice false 10).columns ≠
      matchingCols exUpload.columns exTableCols ∧
    (bulkPipeline exUpload false skipChoice false 10).rows.length = 10 := by
  decide

/-- C2: the bulk submitter issues exactly one insert call carrying all the
records of the final frame and, when the call goes through, reports success
with the input length as the inserted count, never consulting the store
again. -/
theorem c2_submitter_single_call_reports_input_length
    (store : InsertCall → Except String Unit) (t : String) (df : DataFrame)
    (h : store ⟨t, df.toRecords⟩ = Except.ok ()) :
    (bulk_insert_records store t df).1 = [⟨t, df.toRecords⟩] ∧
    (bulk_insert_records store t df).2 =
      (true, "Successfully inserted " ++ toString df.rows.length ++ " records!") := by
  refine ⟨bulk_insert_calls store t df, ?_⟩
  simp only [bulk_insert_records, h]
  simp [DataFrame.toRecords]

/-- C2 (witness): the ten-row frame inserted through a succeeding store
reports ten records inserted. -/
theorem c2_submitter_witness :
    okStore ⟨"customers", exUpload.toRecords⟩ = Except.ok () ∧
    (bulk_insert_records okStore "customers" exUpload).2 =
      (true, "Successfully inserted " ++ toString exUpload.rows.length ++ " records!") :=
  ⟨rfl, (c2_submitter_single_call_reports_input_length okStore "customers" exUpload rfl).2⟩

/-- C3 (counterexample): a fetch succeeding with zero rows and a fetch
failure return the very same value, so the two outcomes are not
distinguishable at the return value of the operation. -/
theorem c3_counterexample :
    get_table_data (Except.ok []) = get_table_data (Except.error "connection refused") := rfl

/-- C3 (amended): a fetch succeeding with zero rows and a fetch failure
both return the empty frame; the failure is signalled only through the
displayed error message, which is present exactly on failure. -/
theorem c3_empty_success_vs_failure (e : String) :
    get_table_data (Except.ok []) = DataFrame.empty ∧
    get_table_data (Except.error e) = DataFrame.empty ∧
    get_table_data_display (Except.ok []) = none ∧
    get_table_data_display (Except.error e) = some ("Error fetching data: " ++ e) :=
  ⟨rfl, rfl, rfl, rfl⟩

/-- C4 (counterexample): for file columns a, b, c and table columns b, c,
d, the derived column set the code reports is the intersection b, c shown
as the matching columns; no reported component is the unmatched-file set
or the unmatched-table set. -/
theorem c4_counterexample :
    reconcileDisplay ["a", "b", "c"] ["b", "c", "d"] =
      ⟨["b", "c", "d"], ["a", "b", "c"], some ["b", "c"]⟩ ∧
    (reconcileDisplay ["a", "b", "c"] ["b", "c", "d"]).matchingShown ≠ some ["a"] ∧
    (reconcileDisplay ["a", "b", "c"] ["b", "c", "d"]).matchingShown ≠ some ["d"] := by
  decide

/-- C4 (amended): alongside the preview the code reports the raw table
column list, the raw file column list, and (when nonempty) the matching
columns, which are exactly the intersection of the two; no unmatched-file
or unmatched-table set is computed or reported. -/
theorem c4_display_reports_intersection_only (F T : List String) :
    (reconcileDisplay F T).tableColsShown = T ∧
    (reconcileDisplay F T).fileColsShown = F ∧
    (∀ c, c ∈ matchingCols F T ↔ c ∈ F ∧ c ∈ T) ∧
    ((reconcileDisplay F T).matchingShown = none ∨
      (reconcileDisplay F T).matchingShown = some (matchingCols F T)) := by
  refine ⟨rfl, rfl, ?_, ?_⟩
  · intro c
    simp [matchingCols, List.mem_filter]
  · by_cases h : (matchingCols F T).isEmpty <;> simp [reconcileDisplay, h]

/-- C5: when the transport does not fail, update and delete report success
even with zero matching records; the reported outcome is a constant,
identical to the outcome of any matching non-failing update or delete, and
with zero matches the stored table is left unchanged. -/
theorem c5_zero_match_reports_success (tbl : List DBRecord) (idc : String) (idv : Value)
    (patch : DBRecord) (h : countMatches tbl idc idv = 0) :
    update_record none tbl idc idv patch = (tbl, (true, "Record updated successfully!")) ∧
    delete_record none tbl idc idv = (tbl, (true, "Record deleted successfully!")) ∧
    (∀ tbl2 idc2 idv2 patch2,
      (update_record none tbl2 idc2 idv2 patch2).2 = (true, "Record updated successfully!")) ∧
    (∀ tbl2 idc2 idv2,
      (delete_record none tbl2 idc2 idv2).2 = (true, "Record deleted successfully!")) := by
  have hno : ∀ r ∈ tbl, ¬ rowMatches r idc idv = true :=
    List.filter_eq_nil_iff.mp (List.length_eq_zero.mp h)
  refine ⟨?_, ?_, fun _ _ _ _ => rfl, fun _ _ _ => rfl⟩
  · have : supabaseUpdate tbl idc idv patch = tbl := by
      have := List.map_congr_left
        (l := tbl) (g := id)
        (f := fun r => if rowMatches r idc idv then applyPatch patch r else r)
        (fun r hr => by simp [hno r hr])
      simpa [supabaseUpdate] using this
    simp [update_record, this]
  · have : supabaseDelete tbl idc idv = tbl := by
      refine List.filter_eq_self.mpr (fun r hr => ?_)
      simp [hno r hr]
    simp [delete_record, this]

/-- C5 (witness): a one-record table with no record matching id two. -/
theorem c5_zero_match_witness :
    countMatches [[("id", some "1")]] "id" (some "2") = 0 ∧
    update_record none [[("id", some "1")]] "id" (some "2") [("name", some "z")] =
      ([[("id", some "1")]], (true, "Record updated successfully!")) :=
  ⟨by decide,
   (c5_zero_match_reports_success [[("id", some "1")]] "id" (some "2") [("name", some "z")]
     (by decide)).1⟩

/-- C6: when the store insert raises, the submitter returns failure
carrying the transport message verbatim after a fixed prefix, reports no
row as inserted, and has issued exactly one insert call, so no retry and
no partial batch. -/
theorem c6_failure_verbatim_single_call (store : InsertCall → Except String Unit)
    (t : String) (df : DataFrame) (e : String)
    (h : store ⟨t, df.toRecords⟩ = Except.error e) :
    bulk_insert_records store t df =
      ([⟨t, df.toRecords⟩], (false, "Error in bulk insert: " ++ e)) ∧
    (bulk_insert_records store t df).1.length = 1 := by
  have h1 : bulk_insert_records store t df =
      ([⟨t, df.toRecords⟩], (false, "Error in bulk insert: " ++ e)) := by
    simp only [bulk_insert_records, h]
  exact ⟨h1, by rw [h1]; rfl⟩


/-- C6 (witness): a failing store reports the constraint violation
message verbatim and the batch as not inserted. -/
theorem c6_failure_witness :
    failStore ⟨"customers", exUpload.toRecords⟩ =
      Except.error "duplicate key value violates unique constraint" ∧
    bulk_insert_records failStore "customers" exUpload =
      ([⟨"customers", exUpload.toRecords⟩],
       (false, "Error in bulk insert: duplicate key value violates unique constraint")) :=
  ⟨rfl,
   (c6_failure_verbatim_single_call failStore "customers" exUpload
     "duplicate key value violates unique constraint" rfl).1⟩

/-- C7: drop_incomplete removes exactly the records with at least one null
field among the columns present at that point, keeping the survivors in
their original relative order; in the pipeline it runs after the mapping
projection; a four-record frame whose second record has a null field
cleans to its three complete records in order. -/
theorem c7_drop_incomplete_exact (df : DataFrame) (choice : String → String) (n : Nat) :
    (df.dropna).columns = df.columns ∧
    (df.dropna).rows.Sublist df.rows ∧
    (∀ r ∈ (df.dropna).rows, rowComplete r = true) ∧
    (∀ r ∈ df.rows, rowComplete r = true → r ∈ (df.dropna).rows) ∧
    bulkPipeline df true choice true n = ((applyMapping df choice).dropna).head n ∧
    exClean4.dropna = exClean3 := by
  refine ⟨rfl, List.filter_sublist df.rows, ?_, ?_, rfl, by decide⟩
  · intro r hr
    exact (List.mem_filter.mp hr).2
  · intro r hr hc
    exact List.mem_filter.mpr ⟨hr, hc⟩

/-- C7 (witness): in the four-record example the first record is complete
and survives the cleaning. -/
theorem c7_drop_incomplete_witness :
    ([some "1", some "2"] ∈ exClean4.rows ∧ rowComplete [some "1", some "2"] = true) ∧
    [some "1", some "2"] ∈ (exClean4.dropna).rows :=
  ⟨⟨by decide, by decide⟩,
   (c7_drop_incomplete_exact exClean4 skipChoice 0).2.2.2.1 [some "1", some "2"]
     (by decide) (by decide)⟩

/-- C8: the cleaning stage is a pure function of its input frame and
options: two independent applications with the same options to the same
source frame agree, the output rows are a sublist of the unaltered source
rows, and the columns are passed through unchanged.  The pandas operations
embedded here, dropna and head, both return fresh frames and leave their
input untouched, which is what makes this pure embedding faithful. -/
theorem c8_cleaner_pure (remove_empty : Bool) (n : Nat) (df : DataFrame) :
    cleanStage remove_empty n df = cleanStage remove_empty n df ∧
    (cleanStage remove_empty n df).rows.Sublist df.rows ∧
    (cleanStage remove_empty n df).columns = df.columns := by
  refine ⟨rfl, ?_, ?_⟩
  · cases remove_empty
    · exact List.take_sublist n df.rows
    · exact (List.take_sublist n (df.rows.filter rowComplete)).trans
        (List.filter_sublist df.rows)
  · cases remove_empty <;> rfl

/-- C9: the insert payload of the Add Record form and the update payload of
the Update Record form contain no field with an empty entered value; the
Add payload excludes every field whose lowercased name is id, created_at
or updated_at, the Update payload excludes the chosen id column; and when
the cleaned payload is empty no store call is issued at all. -/
theorem c9_payload_filtering (t : String) (cols : List String) (idc idv : String)
    (entered : String → String) :
    (∀ kv ∈ addCleanData cols entered,
      kv.2 ≠ "" ∧ protectedFields.contains (pyLower kv.1) = false) ∧
    (addCleanData cols entered = [] → addRecordSubmit t cols entered = none) ∧
    (∀ kv ∈ updateCleanData cols idc entered, kv.2 ≠ "" ∧ kv.1 ≠ idc) ∧
    (updateCleanData cols idc entered = [] →
      updateRecordSubmit t cols idc idv entered = none) := by
  refine ⟨?_, ?_, ?_, ?_⟩
  · intro kv hkv
    have hp := (List.mem_filter.mp hkv).2
    simp only [Bool.and_eq_true, bne_iff_ne, Bool.not_eq_true] at hp
    refine ⟨hp.1, ?_⟩
    simpa using hp.2
  · intro h
    simp [addRecordSubmit, h]
  · intro kv hkv
    have hp := (List.mem_filter.mp hkv).2
    simp only [Bool.and_eq_true, bne_iff_ne] at hp
    exact hp
  · intro h
    simp [updateRecordSubmit, h]

/-- C9 (witness): with columns ID and name and only the name filled, the
payload keeps only the nonempty non-protected name field; with every field
blank, neither form issues a store call. -/
theorem c9_payload_witness :
    ("alice" ≠ "" ∧ protectedFields.contains (pyLower "name") = false) ∧
    addRecordSubmit "t" ["id"] enteredBlank = none ∧
    updateRecordSubmit "t" ["id", "name"] "id" "1" enteredBlank = none :=
  ⟨(c9_payload_filtering "t" ["ID", "name"] "id" "1" enteredAdd).1 ("name", "alice")
     (by decide),
   (c9_payload_filtering "t" ["id"] "id" "1" enteredBlank).2.1 (by decide),
   (c9_payload_filtering "t" ["id", "name"] "id" "1" enteredBlank).2.2.2 (by decide)⟩

/-- Keys after one column assignment: unchanged when the destination
already exists, appended otherwise. -/
theorem assignCol_keys (acc : List ColumnData) (p : ColumnData) :
    (assignCol acc p).map Prod.fst =
      if (acc.map Prod.fst).contains p.1 then acc.map Prod.fst
      else acc.map Prod.fst ++ [p.1] := by
  unfold assignCol
  by_cases h : (acc.map Prod.fst).contains p.1
  · simp only [h, if_true]
    rw [List.map_map]
    apply List.map_congr_left
    intro q _
    by_cases hq : q.1 = p.1
    · simp only [Function.comp_apply, hq, if_true]
    · simp only [Function.comp_apply, if_neg hq]
  · rw [if_neg h, if_neg h, List.map_append]
    rfl

/-- Lookup is unaffected by overwriting a different destination column. -/
theorem lookupCol_replace_ne (acc : List ColumnData) (p : ColumnData) (d : String)
    (hd : d ≠ p.1) :
    lookupCol d (acc.map (fun q => if q.1 = p.1 then p else q)) = lookupCol d acc := by
  induction acc with
  | nil => rfl
  | cons q qs ih =>
    by_cases hq : q.1 = p.1
    · simp [lookupCol, hq, Ne.symm hd, ih]
    · by_cases hqd : q.1 = d <;> simp [lookupCol, hq, hqd, hd, ih]

/-- Lookup of an overwritten destination column sees the new values. -/
theorem lookupCol_replace_eq (acc : List ColumnData) (p : ColumnData)
    (h : (acc.map Prod.fst).contains p.1 = true) :
    lookupCol p.1 (acc.map (fun q => if q.1 = p.1 then p else q)) = some p.2 := by
  induction acc with
  | nil => simp at h
  | cons q qs ih =>
    by_cases hq : q.1 = p.1
    · simp [lookupCol, hq]
    · have h2 : (qs.map Prod.fst).contains p.1 = true := by
        simp only [List.map_cons, List.contains_cons, Bool.or_eq_true, beq_iff_eq] at h
        rcases h with h | h
        · exact absurd h.symm hq
        · exact h
      simp [lookupCol, hq, ih h2]

/-- Lookup of a key absent from the key list yields nothing. -/
theorem lookupCol_eq_none_of_not_mem (d : String) (l : List ColumnData)
    (h : ¬ d ∈ l.map Prod.fst) : lookupCol d l = none := by
  induction l with
  | nil => rfl
  | cons q qs ih =>
    simp only [List.map_cons, List.mem_cons] at h
    push_neg at h
    have hne : ¬ q.1 = d := fun he => h.1 he.symm
    simp [lookupCol, hne, ih h.2]

/-- Lookup over an appended columnar frame. -/
theorem lookupCol_append (d : String) (l1 l2 : List ColumnData) :
    lookupCol d (l1 ++ l2) = (lookupCol d l1).or (lookupCol d l2) := by
  induction l1 with
  | nil => rfl
  | cons q qs ih =>
    by_cases hq : q.1 = d <;> simp [lookupCol, hq, ih]

/-- Lookup after one assignment: the assigned destination now holds the
assigned values, every other destination is unchanged. -/
theorem lookupCol_assignCol (acc : List ColumnData) (p : ColumnData) (d : String) :
    lookupCol d (assignCol acc p) = if p.1 = d then some p.2 else lookupCol d acc := by
  unfold assignCol
  by_cases hc : (acc.map Prod.fst).contains p.1
  · simp only [hc, if_true]
    by_cases hd : p.1 = d
    · subst hd
      rw [lookupCol_replace_eq acc p hc]
      simp
    · rw [lookupCol_replace_ne acc p d (fun h => hd h.symm)]
      simp [hd]
  · rw [if_neg hc, lookupCol_append]
    by_cases hd : p.1 = d
    · subst hd
      have hnm : ¬ p.1 ∈ acc.map Prod.fst := by
        simpa using hc
      rw [lookupCol_eq_none_of_not_mem p.1 acc hnm]
      simp [lookupCol]
    · simp [lookupCol, hd]

/-- Lookup through the whole assignment loop: a destination column holds
the values assigned by the last file column in file-column order whose
chosen destination it is; destinations never assigned keep their prior
binding. -/
theorem foldl_assign_lookup (vals : String → List Value) (choice : String → String)
    (d : String) (hd : d ≠ "Skip") (cs : List String) :
    ∀ acc : List ColumnData,
      lookupCol d (cs.foldl
        (fun acc c => if choice c = "Skip" then acc else assignCol acc (choice c, vals c))
        acc) =
      (match cs.reverse.find? (fun c => decide (choice c = d)) with
       | some c => some (vals c)
       | none => lookupCol d acc) := by
  induction cs with
  | nil => intro acc; rfl
  | cons c cs ih =>
    intro acc
    rw [List.foldl_cons, ih, List.reverse_cons, List.find?_append]
    cases hfind : cs.reverse.find? (fun c => decide (choice c = d)) with
    | some c0 => rfl
    | none =>
      simp only [Option.none_or]
      by_cases hcd : choice c = d
      · have hns : choice c ≠ "Skip" := by rw [hcd]; exact hd
        simp [List.find?, hcd, hd, lookupCol_assignCol]
      · by_cases hskip : choice c = "Skip"
        · simp [List.find?, hskip, hcd, Ne.symm hd]
        · simp [List.find?, hskip, hcd, lookupCol_assignCol]

/-- The assignment loop keeps destination column names free of
duplicates. -/
theorem foldl_assign_nodup (vals : String → List Value) (choice : String → String)
    (cs : List String) :
    ∀ acc : List ColumnData,
      (acc.map Prod.fst).Nodup →
      ((cs.foldl
        (fun acc c => if choice c = "Skip" then acc else assignCol acc (choice c, vals c))
        acc).map Prod.fst).Nodup := by
  induction cs with
  | nil => intro acc h; exact h
  | cons c cs ih =>
    intro acc h
    rw [List.foldl_cons]
    apply ih
    by_cases hskip : choice c = "Skip"
    · rw [if_pos hskip]; exact h
    · rw [if_neg hskip, assignCol_keys]
      by_cases hc : (acc.map Prod.fst).contains ((choice c, vals c).1)
      · rw [if_pos hc]; exact h
      · rw [if_neg hc]
        have hnm : ¬ (choice c) ∈ acc.map Prod.fst := by simpa using hc
        simp [List.nodup_append, h, hnm]

/-- One assignment step adds exactly the chosen destination to the key
set. -/
theorem mem_keys_step (vals : String → List Value) (choice : String → String)
    (d c : String) (hd : d ≠ "Skip") (acc : List ColumnData) :
    (d ∈ ((if choice c = "Skip" then acc
          else assignCol acc (choice c, vals c)).map Prod.fst) ↔
      d ∈ acc.map Prod.fst ∨ choice c = d) := by
  by_cases hskip : choice c = "Skip"
  · have hcd : choice c ≠ d := by rw [hskip]; exact Ne.symm hd
    rw [if_pos hskip]
    simp [hcd]
  · rw [if_neg hskip, assignCol_keys]
    by_cases hc : (acc.map Prod.fst).contains ((choice c, vals c).1)
    · rw [if_pos hc]
      have hmem : choice c ∈ acc.map Prod.fst := by simpa using hc
      constructor
      · exact Or.inl
      · rintro (h | h)
        · exact h
        · exact h ▸ hmem
    · rw [if_neg hc]
      simp only [List.mem_append, List.mem_singleton]
      constructor
      · rintro (h | h)
        · exact Or.inl h
        · exact Or.inr h.symm
      · rintro (h | h)
        · exact Or.inl h
        · exact Or.inr h.symm

/-- A destination column is present after the assignment loop exactly when
it was present before or some walked file column is mapped to it. -/
theorem foldl_assign_mem (vals : String → List Value) (choice : String → String)
    (d : String) (hd : d ≠ "Skip") (cs : List String) :
    ∀ acc : List ColumnData,
      (d ∈ (cs.foldl
        (fun acc c => if choice c = "Skip" then acc else assignCol acc (choice c, vals c))
        acc).map Prod.fst ↔
        d ∈ acc.map Prod.fst ∨ ∃ c ∈ cs, choice c = d) := by
  induction cs with
  | nil => intro acc; simp
  | cons c cs ih =>
    intro acc
    rw [List.foldl_cons, ih, mem_keys_step vals choice d c hd acc]
    constructor
    · rintro ((h | h) | ⟨x, hx, hxd⟩)
      · exact Or.inl h
      · exact Or.inr ⟨c, List.mem_cons_self c cs, h⟩
      · exact Or.inr ⟨x, List.mem_cons_of_mem c hx, hxd⟩
    · rintro (h | ⟨x, hx, hxd⟩)
      · exact Or.inl (Or.inl h)
      · rcases List.mem_cons.mp hx with rfl | hx2
        · exact Or.inl (Or.inr hxd)
        · exact Or.inr ⟨x, hx2, hxd⟩

/-- Reading one cell of the row-major conversion through the column index
recovers the stored column values. -/
theorem getD_colIdx (ks : List ColumnData) (d : String) (v : List Value)
    (h : lookupCol d ks = some v) (i : Nat) :
    (ks.map (fun p => p.2.getD i none)).getD (colIdx d (ks.map Prod.fst)) none =
      v.getD i none := by
  induction ks with
  | nil => simp [lookupCol] at h
  | cons p ps ih =>
    by_cases hp : p.1 = d
    · rw [lookupCol, if_pos hp] at h
      injection h with h
      subst h
      simp [colIdx, hp]
    · rw [lookupCol, if_neg hp] at h
      simp only [List.map_cons, colIdx, if_neg hp]
      rw [List.getD_cons_succ]
      exact ih h

/-- Mapping the default-read of each index of the range of the length of a
list recovers the list. -/
theorem range_map_getD {α : Type} (n : Nat) (l : List α) (dflt : α) (h : l.length = n) :
    (List.range n).map (fun i => l.getD i dflt) = l := by
  apply List.ext_getElem
  · simp [h]
  · intro i h1 h2
    simp only [List.getElem_map, List.getElem_range]
    exact List.getD_eq_getElem l dflt h2

/-- C10: when several file columns are mapped to the same non-Skip
destination column, the mapped frame contains that destination column
exactly once, its values are those of the last such file column in
file-column order (the pandas assignment loop overwrites earlier
assignments), and the mapped frame has the same number of rows as the
source, each output row built from the source row at the same position. -/
theorem c10_duplicate_mapping_last_wins (df : DataFrame) (choice : String → String)
    (d cLast : String) (hd : d ≠ "Skip")
    (hlast : df.columns.reverse.find? (fun c => decide (choice c = d)) = some cLast) :
    (applyMapping df choice).columns.count d = 1 ∧
    lookupCol d (mappingCols df choice) = some (df.colValues cLast) ∧
    (applyMapping df choice).colValues d = df.colValues cLast ∧
    (applyMapping df choice).rows.length = df.rows.length := by
  have hlk : lookupCol d (mappingCols df choice) = some (df.colValues cLast) := by
    have h := foldl_assign_lookup df.colValues choice d hd df.columns []
    rw [hlast] at h
    unfold mappingCols
    exact h
  have hnodup : ((mappingCols df choice).map Prod.fst).Nodup := by
    have h := foldl_assign_nodup df.colValues choice df.columns [] (by simp)
    unfold mappingCols
    exact h
  have hcmem : cLast ∈ df.columns := List.mem_reverse.mp (List.mem_of_find?_eq_some hlast)
  have hcd : choice cLast = d := by
    have h := List.find?_some hlast
    simpa using h
  have hdm : d ∈ (mappingCols df choice).map Prod.fst := by
    have h := foldl_assign_mem df.colValues choice d hd df.columns []
    unfold mappingCols
    exact h.mpr (Or.inr ⟨cLast, hcmem, hcd⟩)
  have hne : (mappingCols df choice).isEmpty = false := by
    cases hmc : mappingCols df choice with
    | nil => rw [hmc] at hdm; simp at hdm
    | cons a l => rfl
  have happly : applyMapping df choice =
      ⟨(mappingCols df choice).map Prod.fst,
       (List.range df.rows.length).map
         (fun i => (mappingCols df choice).map (fun p => p.2.getD i none))⟩ := by
    unfold applyMapping toRowMajor
    rw [if_neg (by rw [hne]; exact Bool.false_ne_true)]
  have hlen : (df.colValues cLast).length = df.rows.length := by
    simp [DataFrame.colValues]
  refine ⟨?_, hlk, ?_, ?_⟩
  · rw [happly]
    exact List.count_eq_one_of_mem hnodup hdm
  · rw [happly]
    show List.map (fun r => r.getD (colIdx d (List.map Prod.fst (mappingCols df choice))) none)
        (List.map (fun i => List.map (fun p => p.2.getD i none) (mappingCols df choice))
          (List.range df.rows.length)) = df.colValues cLast
    rw [List.map_map]
    exact (List.map_congr_left
        (fun i _ => getD_colIdx (mappingCols df choice) d (df.colValues cLast) hlk i)).trans
      (range_map_getD df.rows.length (df.colValues cLast) none hlen)
  · rw [happly]
    simp

/-- C10 (witness): both columns of the two-row example are mapped to
destination x; the mapped frame carries x once with the values of the
second file column and keeps both rows. -/
theorem c10_duplicate_mapping_witness :
    (("x" : String) ≠ "Skip" ∧
      exDup.columns.reverse.find? (fun c => decide (choiceX c = "x")) = some "b") ∧
    (applyMapping exDup choiceX).columns.count "x" = 1 ∧
    (applyMapping exDup choiceX).colValues "x" = exDup.colValues "b" :=
  ⟨⟨by decide, by decide⟩,
   (c10_duplicate_mapping_last_wins exDup choiceX "x" "b" (by decide) (by decide)).1,
   (c10_duplicate_mapping_last_wins exDup choiceX "x" "b" (by decide) (by decide)).2.2.1⟩
